import Mathlib

/-!
# Dredd hooks of public-suggestions-api (`_ft/dredd-hooks.js`)

A shallow embedding of the two hooks the script registers:

* `hooks.beforeAll`  — the fixture loader, modelled as a straight-line program
  in a small effect monad that records every call to the outside world
  (`fs`, `console`, `http`, the `done` callback) and may end with a thrown error;
* `hooks.beforeEach` — the transaction policy, modelled as two consecutive
  `if` statements over the mutable transaction object and the `hooks.log` output.

JavaScript strings are modelled by Lean `String`s (sequences of characters);
the two prefixes tested by the policy are plain ASCII, for which a prefix test on
UTF-16 code units and a prefix test on characters agree.
-/

namespace DreddHooks

/-! ## Strings -/

/-- JavaScript `String.prototype.startsWith(searchString)` with the default position `0`:
the characters of `searchString` are exactly the first characters of `s`. -/
def startsWith (s searchString : String) : Bool :=
  searchString.data.isPrefixOf s.data

/-! ## Transaction policy (`hooks.beforeEach`) -/

/-- The part of `transaction.request` the hook touches. -/
structure Request where
  body : String
  deriving DecidableEq, Repr

/-- The transaction object handed to the hook by the runner. -/
structure Transaction where
  name : String
  skip : Bool
  request : Request
  deriving DecidableEq, Repr

/-- The state a `beforeEach` invocation works on: the transaction it mutates in
place and the lines it has passed to `hooks.log` so far (oldest first). -/
structure EachState where
  transaction : Transaction
  log : List String
  deriving DecidableEq, Repr

/-- Literal of the first `if` of `hooks.beforeEach`. -/
def suggest400Prefix : String :=
  "Internal API > /content/suggest > Suggests annotations > 400"

/-- Literal of the second `if` of `hooks.beforeEach`. -/
def healthPrefix : String := "Health > /__gtg"

/-- First statement of `hooks.beforeEach`:
`if (transaction.name.startsWith("Internal API > ... > 400")) { transaction.skip = false; transaction.request.body = "wrong_json" }`. -/
def suggest400Rule (s : EachState) : EachState :=
  if startsWith s.transaction.name suggest400Prefix then
    let t1 : Transaction := { s.transaction with skip := false }
    let t2 : Transaction := { t1 with request := { t1.request with body := "wrong_json" } }
    { s with transaction := t2 }
  else s

/-- Second statement of `hooks.beforeEach`:
`if (transaction.name.startsWith("Health > /__gtg")) { hooks.log("skipping: " + transaction.name); transaction.skip = true; }`. -/
def healthRule (s : EachState) : EachState :=
  if startsWith s.transaction.name healthPrefix then
    let s1 : EachState := { s with log := s.log ++ ["skipping: " ++ s.transaction.name] }
    { s1 with transaction := { s1.transaction with skip := true } }
  else s

/-- Body of the function registered with `hooks.beforeEach`, run from a given
state: the two `if` statements in source order. -/
def beforeEachFrom (s : EachState) : EachState :=
  healthRule (suggest400Rule s)

/-- The hook `hooks.beforeEach(function (transaction) { ... })` applied to a
transaction, starting with nothing logged. -/
def beforeEach (t : Transaction) : EachState :=
  beforeEachFrom { transaction := t, log := [] }

/-- The two `if` statements of `hooks.beforeEach` executed in the opposite
order (health rule first). Not in the source; used to compare orders. -/
def beforeEachSwapped (t : Transaction) : EachState :=
  suggest400Rule (healthRule { transaction := t, log := [] })

/-! ## Fixture loader (`hooks.beforeAll`) -/

/-- An exception thrown by a Node.js library call. -/
structure JsError where
  message : String
  deriving DecidableEq, Repr

/-- The `options` object given to `http.request`. -/
structure RequestOptions where
  host : String
  port : String
  path : String
  method : String
  headers : List (String × String)
  deriving DecidableEq, Repr

/-- What a response callback does with the response object `res`. -/
inductive ResponseAction where
  | setEncoding (encoding : String)
  deriving DecidableEq, Repr

/-- The calls a hook makes to the outside world, in the order it makes them.
A request object is named by its handle: the number of requests created before it. -/
inductive Effect where
  | existsSync (path : String)
  | consoleLog (msg : String)
  | readFileSync (path encoding : String)
  | httpRequest (options : RequestOptions) (callback : List ResponseAction)
  | reqWrite (req : Nat) (chunk : String)
  | reqEnd (req : Nat)
  | done
  deriving DecidableEq, Repr

/-- The file system as the hook sees it: the answers of `fs.existsSync` and
`fs.readFileSync` (a text, or a thrown error). -/
structure World where
  existsSync : String → Bool
  readFileSync : String → String → Except JsError String

/-- A hook body: it appends to the trace of effects and either returns or throws. -/
abbrev HookM := ExceptT JsError (StateM (List Effect))

/-- Record one effect at the end of the trace. -/
def emit (e : Effect) : HookM Unit :=
  modify fun trace => trace ++ [e]

/-- Call `fs.existsSync(path)`. -/
def fsExistsSync (w : World) (path : String) : HookM Bool := do
  emit (Effect.existsSync path)
  pure (w.existsSync path)

/-- Call `fs.readFileSync(path, encoding)`; a failed read throws. -/
def fsReadFileSync (w : World) (path encoding : String) : HookM String := do
  emit (Effect.readFileSync path encoding)
  match w.readFileSync path encoding with
  | Except.ok contents => pure contents
  | Except.error e => throw e

/-- Call `console.log(msg)`. -/
def consoleLog (msg : String) : HookM Unit :=
  emit (Effect.consoleLog msg)

/-- Number of request objects created in a trace. -/
def requestCount : List Effect → Nat
  | [] => 0
  | Effect.httpRequest _ _ :: rest => requestCount rest + 1
  | _ :: rest => requestCount rest

/-- Call `http.request(options, callback)`; returns the new request object. -/
def httpRequest (options : RequestOptions) (callback : List ResponseAction) : HookM Nat := do
  let trace ← get
  emit (Effect.httpRequest options callback)
  pure (requestCount trace)

/-- Call `req.write(chunk)`. -/
def reqWrite (req : Nat) (chunk : String) : HookM Unit :=
  emit (Effect.reqWrite req chunk)

/-- Call `req.end()`. -/
def reqEnd (req : Nat) : HookM Unit :=
  emit (Effect.reqEnd req)

/-- Call the `done` callback of the hook. -/
def done : HookM Unit :=
  emit Effect.done

/-- The constant `defaultFixtures` of the script. -/
def defaultFixtures : String := "./_ft/ersatz-fixtures.yml"

/-- The function registered with `hooks.beforeAll(function(t, done) { ... })`.
Its first parameter `t` is never used; calling its second parameter `done` is
the effect `Effect.done`. The response callback given to `http.request` runs
only when a response arrives, after the hook has returned, so it is recorded
with the request and contributes nothing to the trace of the hook itself. -/
def beforeAll (w : World) : HookM Unit := do
  if !(← fsExistsSync w defaultFixtures) then
    consoleLog "No fixtures found, skipping hook."
    done
    return
  let contents ← fsReadFileSync w defaultFixtures "utf8"
  let options : RequestOptions :=
    { host := "localhost"
      port := "9000"
      path := "/__configure"
      method := "POST"
      headers := [("Content-Type", "application/x-yaml")] }
  let req ← httpRequest options [ResponseAction.setEncoding "utf8"]
  reqWrite req contents
  reqEnd req
  done

/-- Outcome of one hook invocation: how it ended and the trace of its effects. -/
structure Run where
  result : Except JsError Unit
  trace : List Effect

/-- Run a hook body from an empty trace. -/
def runHook (m : HookM Unit) : Run :=
  let r := (ExceptT.run m).run []
  { result := r.1, trace := r.2 }

/-- The HTTP requests created in a trace. -/
def requestsOf (trace : List Effect) : List (RequestOptions × List ResponseAction) :=
  trace.filterMap fun e =>
    match e with
    | Effect.httpRequest o cb => some (o, cb)
    | _ => none

/-- The chunks written to request `req` in a trace, in order. -/
def writesOf (req : Nat) (trace : List Effect) : List String :=
  trace.filterMap fun e =>
    match e with
    | Effect.reqWrite r chunk => if r = req then some chunk else none
    | _ => none

/-- The port number a request's `port` option denotes: the script gives the
port as the string `'9000'`, which Node reads as a decimal number. -/
def portNumber (o : RequestOptions) : Option Nat :=
  if o.port.data ≠ [] ∧ o.port.data.all Char.isDigit then
    some (o.port.data.foldl (fun n c => 10 * n + (c.toNat - 48)) 0)
  else none

/-! ## Sample file systems -/

/-- A file system with no file at all: every read is refused. -/
def emptyWorld : World :=
  { existsSync := fun _ => false,
    readFileSync := fun _ _ => Except.error { message := "ENOENT" } }

/-- A file system in which every file exists and holds the text "routes: []". -/
def fixtureWorld : World :=
  { existsSync := fun _ => true,
    readFileSync := fun _ _ => Except.ok "routes: []" }

/-- A file system in which every file exists and no file may be read. -/
def unreadableWorld : World :=
  { existsSync := fun _ => true,
    readFileSync := fun _ _ => Except.error { message := "EACCES" } }

/-! ## Helper lemmas on prefixes -/

theorem startsWith_iff_append (s p : String) :
    startsWith s p = true ↔ ∃ suffix : String, s = p ++ suffix := by
  unfold startsWith
  rw [List.isPrefixOf_iff_prefix]
  constructor
  · rintro ⟨r, hr⟩
    exact ⟨⟨r⟩, String.ext (by simpa using hr.symm)⟩
  · rintro ⟨suffix, rfl⟩
    exact ⟨suffix.data, by simp⟩

theorem startsWith_head (s p : String) (c : Char) (cs : List Char)
    (hp : p.data = c :: cs) (h : startsWith s p = true) : s.data.head? = some c := by
  unfold startsWith at h
  rw [List.isPrefixOf_iff_prefix, hp] at h
  obtain ⟨r, hr⟩ := h
  rw [← hr]
  rfl

theorem prefixes_disjoint (name : String) :
    ¬ (startsWith name suggest400Prefix = true ∧ startsWith name healthPrefix = true) := by
  rintro ⟨h1, h2⟩
  have e1 := startsWith_head name suggest400Prefix 'I' _ rfl h1
  have e2 := startsWith_head name healthPrefix 'H' _ rfl h2
  rw [e1] at e2
  exact absurd e2 (by decide)

theorem health_false_of_suggest400 {name : String}
    (h : startsWith name suggest400Prefix = true) : startsWith name healthPrefix = false := by
  cases hh : startsWith name healthPrefix
  · rfl
  · exact absurd ⟨h, hh⟩ (prefixes_disjoint name)

theorem suggest400_false_of_health {name : String}
    (h : startsWith name healthPrefix = true) : startsWith name suggest400Prefix = false := by
  cases hh : startsWith name suggest400Prefix
  · rfl
  · exact absurd ⟨hh, h⟩ (prefixes_disjoint name)

/-! ## Helper lemmas: the three cases of the transaction policy -/

theorem beforeEach_of_suggest400 (t : Transaction)
    (h : startsWith t.name suggest400Prefix = true) :
    beforeEach t =
      { transaction := { name := t.name, skip := false, request := { body := "wrong_json" } },
        log := [] } := by
  have h2 : startsWith t.name healthPrefix = false := health_false_of_suggest400 h
  simp [beforeEach, beforeEachFrom, suggest400Rule, healthRule, h, h2]

theorem beforeEach_of_health (t : Transaction)
    (h : startsWith t.name healthPrefix = true) :
    beforeEach t =
      { transaction := { name := t.name, skip := true, request := t.request },
        log := ["skipping: " ++ t.name] } := by
  have h1 : startsWith t.name suggest400Prefix = false := suggest400_false_of_health h
  simp [beforeEach, beforeEachFrom, suggest400Rule, healthRule, h, h1]

theorem beforeEach_of_neither (t : Transaction)
    (h1 : startsWith t.name suggest400Prefix = false)
    (h2 : startsWith t.name healthPrefix = false) :
    beforeEach t = { transaction := t, log := [] } := by
  simp [beforeEach, beforeEachFrom, suggest400Rule, healthRule, h1, h2]

theorem beforeEach_of_not_health (t : Transaction)
    (h2 : startsWith t.name healthPrefix = false) :
    (beforeEach t).log = [] ∧
      ((beforeEach t).transaction.skip = t.skip ∨ (beforeEach t).transaction.skip = false) := by
  cases h1 : startsWith t.name suggest400Prefix
  · rw [beforeEach_of_neither t h1 h2]
    exact ⟨rfl, Or.inl rfl⟩
  · rw [beforeEach_of_suggest400 t h1]
    exact ⟨rfl, Or.inr rfl⟩

theorem beforeEach_of_not_suggest400 (t : Transaction)
    (h1 : startsWith t.name suggest400Prefix = false) :
    (beforeEach t).transaction.request.body = t.request.body ∧
      ((beforeEach t).transaction.skip = t.skip ∨ (beforeEach t).transaction.skip = true) := by
  cases h2 : startsWith t.name healthPrefix
  · rw [beforeEach_of_neither t h1 h2]
    exact ⟨rfl, Or.inl rfl⟩
  · rw [beforeEach_of_health t h2]
    exact ⟨rfl, Or.inr rfl⟩

theorem not_startsWith_of_ne_append (name p : String)
    (hne : ∀ suffix : String, name ≠ p ++ suffix) : startsWith name p = false := by
  cases hs : startsWith name p
  · rfl
  · obtain ⟨suffix, hsuf⟩ := (startsWith_iff_append _ _).1 hs
    exact absurd hsuf (hne suffix)

theorem beforeEach_passes_through (name : String) (skip : Bool) (body : String)
    (h1 : startsWith name suggest400Prefix = false)
    (h2 : startsWith name healthPrefix = false) :
    beforeEach { name := name, skip := skip, request := { body := body } } =
      { transaction := { name := name, skip := skip, request := { body := body } },
        log := [] } :=
  beforeEach_of_neither _ h1 h2

/-! ## Helper lemmas: the three runs of the fixture loader -/

theorem beforeAll_missing (w : World) (h : w.existsSync defaultFixtures = false) :
    (runHook (beforeAll w)).result = Except.ok () ∧
      (runHook (beforeAll w)).trace =
        [Effect.existsSync defaultFixtures,
         Effect.consoleLog "No fixtures found, skipping hook.",
         Effect.done] := by
  simp [runHook, beforeAll, fsExistsSync, h]
  constructor <;> rfl

theorem beforeAll_read_error (w : World) (e : JsError)
    (h1 : w.existsSync defaultFixtures = true)
    (h2 : w.readFileSync defaultFixtures "utf8" = Except.error e) :
    (runHook (beforeAll w)).result = Except.error e ∧
      (runHook (beforeAll w)).trace =
        [Effect.existsSync defaultFixtures, Effect.readFileSync defaultFixtures "utf8"] := by
  simp [runHook, beforeAll, fsExistsSync, fsReadFileSync, h1, h2]
  constructor <;> rfl

theorem beforeAll_read_ok (w : World) (C : String)
    (h1 : w.existsSync defaultFixtures = true)
    (h2 : w.readFileSync defaultFixtures "utf8" = Except.ok C) :
    (runHook (beforeAll w)).result = Except.ok () ∧
      (runHook (beforeAll w)).trace =
        [Effect.existsSync defaultFixtures,
         Effect.readFileSync defaultFixtures "utf8",
         Effect.httpRequest
           { host := "localhost", port := "9000", path := "/__configure", method := "POST",
             headers := [("Content-Type", "application/x-yaml")] }
           [ResponseAction.setEncoding "utf8"],
         Effect.reqWrite 0 C,
         Effect.reqEnd 0,
         Effect.done] := by
  simp [runHook, beforeAll, fsExistsSync, fsReadFileSync, h1, h2]
  constructor <;> rfl

/-! ## Transaction policy: the claims -/

/-- C1: for every transaction whose name starts with
"Internal API > /content/suggest > Suggests annotations > 400", whatever its
input skip flag and request body, after `beforeEach` the skip flag is `false`
and `request.body` is exactly the string "wrong_json". -/
theorem C1_suggest400_unskips_and_sets_body (name : String) (skip : Bool) (body : String)
    (h : startsWith name "Internal API > /content/suggest > Suggests annotations > 400" = true) :
    (beforeEach { name := name, skip := skip, request := { body := body } }).transaction.skip
        = false ∧
      (beforeEach { name := name, skip := skip, request := { body := body } }).transaction.request.body
        = "wrong_json" := by
  rw [beforeEach_of_suggest400 _ h]
  exact ⟨rfl, rfl⟩

/-- Witness of C1 at the name
"Internal API > /content/suggest > Suggests annotations > 400: some suffix",
with the skip flag set and a body on input. -/
theorem C1_suggest400_unskips_and_sets_body_witness :
    startsWith "Internal API > /content/suggest > Suggests annotations > 400: some suffix"
        "Internal API > /content/suggest > Suggests annotations > 400" = true ∧
      (beforeEach
          { name := "Internal API > /content/suggest > Suggests annotations > 400: some suffix",
            skip := true, request := { body := "valid body" } }).transaction.skip = false ∧
      (beforeEach
          { name := "Internal API > /content/suggest > Suggests annotations > 400: some suffix",
            skip := true, request := { body := "valid body" } }).transaction.request.body
        = "wrong_json" :=
  ⟨by decide,
   C1_suggest400_unskips_and_sets_body
     "Internal API > /content/suggest > Suggests annotations > 400: some suffix" true "valid body"
     (by decide)⟩

/-- C2: for every transaction whose name starts with "Health > /__gtg", whatever
its input skip flag and request body, after `beforeEach` the skip flag is `true`
and `request.body` equals its input value. -/
theorem C2_health_skips_and_keeps_body (name : String) (skip : Bool) (body : String)
    (h : startsWith name "Health > /__gtg" = true) :
    (beforeEach { name := name, skip := skip, request := { body := body } }).transaction.skip
        = true ∧
      (beforeEach { name := name, skip := skip, request := { body := body } }).transaction.request.body
        = body := by
  rw [beforeEach_of_health _ h]
  exact ⟨rfl, rfl⟩

/-- Witness of C2 at the name "Health > /__gtg: some suffix", with the skip flag
clear and a body on input. -/
theorem C2_health_skips_and_keeps_body_witness :
    startsWith "Health > /__gtg: some suffix" "Health > /__gtg" = true ∧
      (beforeEach
          { name := "Health > /__gtg: some suffix", skip := false,
            request := { body := "payload" } }).transaction.skip = true ∧
      (beforeEach
          { name := "Health > /__gtg: some suffix", skip := false,
            request := { body := "payload" } }).transaction.request.body = "payload" :=
  ⟨by decide,
   C2_health_skips_and_keeps_body "Health > /__gtg: some suffix" false "payload" (by decide)⟩

/-- C3: for every transaction whose name starts with neither
"Internal API > /content/suggest > Suggests annotations > 400" nor
"Health > /__gtg", `beforeEach` leaves the transaction unchanged (so skip and
request.body keep their input values) and emits no log line. -/
theorem C3_unmatched_passes_through (t : Transaction)
    (h1 : startsWith t.name "Internal API > /content/suggest > Suggests annotations > 400"
      = false)
    (h2 : startsWith t.name "Health > /__gtg" = false) :
    (beforeEach t).transaction = t ∧
      (beforeEach t).transaction.skip = t.skip ∧
      (beforeEach t).transaction.request.body = t.request.body ∧
      (beforeEach t).log = [] := by
  rw [beforeEach_of_neither t h1 h2]
  exact ⟨rfl, rfl, rfl, rfl⟩

/-- Witness of C3 at the name "Other > endpoint". -/
theorem C3_unmatched_passes_through_witness :
    (beforeEach { name := "Other > endpoint", skip := true, request := { body := "b" } }).transaction
        = { name := "Other > endpoint", skip := true, request := { body := "b" } } ∧
      (beforeEach { name := "Other > endpoint", skip := true, request := { body := "b" } }).transaction.skip
        = true ∧
      (beforeEach
          { name := "Other > endpoint", skip := true, request := { body := "b" } }).transaction.request.body
        = "b" ∧
      (beforeEach { name := "Other > endpoint", skip := true, request := { body := "b" } }).log
        = [] :=
  C3_unmatched_passes_through
    { name := "Other > endpoint", skip := true, request := { body := "b" } }
    (by decide) (by decide)

/-- C4: rule matching in `beforeEach` is a case-sensitive prefix test anchored
at the first character of the name, for both rules.

Health rule: the transaction named "health > /__gtg" (lowercase h) is not
matched: it keeps its input skip flag and body and nothing is logged; the same
holds for " Health > /__gtg", where the text occurs only after the start. The
health rule fires (a line is logged) exactly when the name is "Health > /__gtg"
followed by some suffix, and for every name that is not of that form nothing is
logged and the skip flag is not forced to `true`.

400 rule: the names obtained from
"Internal API > /content/suggest > Suggests annotations > 400" by lowering its
first letter, by raising all its letters, by lowering the S of "Suggests", or by
putting a blank in front, are not matched: the transaction passes through
unchanged for every skip flag and body. The 400 rule fires (a set skip flag is
cleared; a body other than "wrong_json" becomes "wrong_json") exactly when the
name is that prefix followed by some suffix, and for every name that is not of
that form the body is kept and the skip flag is not forced to `false`.

Likewise a clear skip flag becomes set exactly when the name is
"Health > /__gtg" followed by some suffix. -/
theorem C4_matching_is_anchored_case_sensitive_prefix :
    (∀ (skip : Bool) (body : String),
        beforeEach { name := "health > /__gtg", skip := skip, request := { body := body } } =
          { transaction :=
              { name := "health > /__gtg", skip := skip, request := { body := body } },
            log := [] }) ∧
      (∀ (skip : Bool) (body : String),
        beforeEach { name := " Health > /__gtg", skip := skip, request := { body := body } } =
          { transaction :=
              { name := " Health > /__gtg", skip := skip, request := { body := body } },
            log := [] }) ∧
      (∀ t : Transaction,
        (beforeEach t).log ≠ [] ↔ ∃ suffix : String, t.name = "Health > /__gtg" ++ suffix) ∧
      (∀ t : Transaction, (∀ suffix : String, t.name ≠ "Health > /__gtg" ++ suffix) →
        (beforeEach t).log = [] ∧
          ((beforeEach t).transaction.skip = true → t.skip = true)) ∧
      (∀ (skip : Bool) (body : String),
        beforeEach
            { name := "internal API > /content/suggest > Suggests annotations > 400",
              skip := skip, request := { body := body } } =
          { transaction :=
              { name := "internal API > /content/suggest > Suggests annotations > 400",
                skip := skip, request := { body := body } },
            log := [] }) ∧
      (∀ (skip : Bool) (body : String),
        beforeEach
            { name := "INTERNAL API > /CONTENT/SUGGEST > SUGGESTS ANNOTATIONS > 400",
              skip := skip, request := { body := body } } =
          { transaction :=
              { name := "INTERNAL API > /CONTENT/SUGGEST > SUGGESTS ANNOTATIONS > 400",
                skip := skip, request := { body := body } },
            log := [] }) ∧
      (∀ (skip : Bool) (body : String),
        beforeEach
            { name := "Internal API > /content/suggest > suggests annotations > 400",
              skip := skip, request := { body := body } } =
          { transaction :=
              { name := "Internal API > /content/suggest > suggests annotations > 400",
                skip := skip, request := { body := body } },
            log := [] }) ∧
      (∀ (skip : Bool) (body : String),
        beforeEach
            { name := " Internal API > /content/suggest > Suggests annotations > 400",
              skip := skip, request := { body := body } } =
          { transaction :=
              { name := " Internal API > /content/suggest > Suggests annotations > 400",
                skip := skip, request := { body := body } },
            log := [] }) ∧
      (∀ (name body : String),
        (beforeEach { name := name, skip := true, request := { body := body } }).transaction.skip
            = false ↔
          ∃ suffix : String,
            name = "Internal API > /content/suggest > Suggests annotations > 400" ++ suffix) ∧
      (∀ (name : String) (skip : Bool) (body : String), body ≠ "wrong_json" →
        ((beforeEach
              { name := name, skip := skip, request := { body := body } }).transaction.request.body
            = "wrong_json" ↔
          ∃ suffix : String,
            name = "Internal API > /content/suggest > Suggests annotations > 400" ++ suffix)) ∧
      (∀ t : Transaction,
        (∀ suffix : String,
          t.name ≠ "Internal API > /content/suggest > Suggests annotations > 400" ++ suffix) →
        (beforeEach t).transaction.request.body = t.request.body ∧
          ((beforeEach t).transaction.skip = false → t.skip = false)) ∧
      (∀ (name body : String),
        (beforeEach { name := name, skip := false, request := { body := body } }).transaction.skip
            = true ↔
          ∃ suffix : String, name = "Health > /__gtg" ++ suffix) := by
  have key : ∀ t : Transaction,
      (beforeEach t).log ≠ [] ↔ ∃ suffix : String, t.name = "Health > /__gtg" ++ suffix := by
    intro t
    rw [← startsWith_iff_append]
    cases hh : startsWith t.name "Health > /__gtg"
    · have h := (beforeEach_of_not_health t hh).1
      simp [h]
    · rw [beforeEach_of_health t hh]
      simp
  refine ⟨?_, ?_, key, ?_, ?_, ?_, ?_, ?_, ?_, ?_, ?_, ?_⟩
  · intro skip body
    exact beforeEach_passes_through _ skip body (by decide) (by decide)
  · intro skip body
    exact beforeEach_passes_through _ skip body (by decide) (by decide)
  · intro t hne
    have hh : startsWith t.name healthPrefix = false :=
      not_startsWith_of_ne_append _ _ hne
    obtain ⟨hlog, hskip⟩ := beforeEach_of_not_health t hh
    refine ⟨hlog, fun htrue => ?_⟩
    rcases hskip with h | h
    · rw [← h]; exact htrue
    · rw [h] at htrue
      exact absurd htrue (by decide)
  · intro skip body
    exact beforeEach_passes_through _ skip body (by decide) (by decide)
  · intro skip body
    exact beforeEach_passes_through _ skip body (by decide) (by decide)
  · intro skip body
    exact beforeEach_passes_through _ skip body (by decide) (by decide)
  · intro skip body
    exact beforeEach_passes_through _ skip body (by decide) (by decide)
  · intro name body
    rw [← startsWith_iff_append]
    cases h1 : startsWith name
        "Internal API > /content/suggest > Suggests annotations > 400"
    · have h := (beforeEach_of_not_suggest400
        { name := name, skip := true, request := { body := body } } h1).2
      have hskip : (beforeEach
          { name := name, skip := true, request := { body := body } }).transaction.skip
            = true := by
        rcases h with h | h <;> exact h
      simp [hskip]
    · rw [beforeEach_of_suggest400 { name := name, skip := true, request := { body := body } } h1]
      simp
  · intro name skip body hbody
    rw [← startsWith_iff_append]
    cases h1 : startsWith name
        "Internal API > /content/suggest > Suggests annotations > 400"
    · have h := (beforeEach_of_not_suggest400
        { name := name, skip := skip, request := { body := body } } h1).1
      rw [h]
      simp [hbody]
    · rw [beforeEach_of_suggest400 { name := name, skip := skip, request := { body := body } } h1]
      simp
  · intro t hne
    have h1 : startsWith t.name suggest400Prefix = false :=
      not_startsWith_of_ne_append _ _ hne
    obtain ⟨hbody, hskip⟩ := beforeEach_of_not_suggest400 t h1
    refine ⟨hbody, fun hfalse => ?_⟩
    rcases hskip with h | h
    · rw [← h]; exact hfalse
    · rw [h] at hfalse
      exact absurd hfalse (by decide)
  · intro name body
    rw [← startsWith_iff_append]
    cases h2 : startsWith name "Health > /__gtg"
    · have h := (beforeEach_of_not_health
        { name := name, skip := false, request := { body := body } } h2).2
      have hskip : (beforeEach
          { name := name, skip := false, request := { body := body } }).transaction.skip
            = false := by
        rcases h with h | h <;> exact h
      simp [hskip]
    · rw [beforeEach_of_health { name := name, skip := false, request := { body := body } } h2]

/-- C9: the two rule prefixes are disjoint. No name starts with both
"Internal API > /content/suggest > Suggests annotations > 400" and
"Health > /__gtg", so for every transaction at most one of the two rules
applies, and running the two rules in the opposite order gives the same
resulting transaction (and the same log). -/
theorem C9_prefixes_disjoint_rules_commute (t : Transaction) :
    ¬ (startsWith t.name "Internal API > /content/suggest > Suggests annotations > 400" = true ∧
        startsWith t.name "Health > /__gtg" = true) ∧
      (beforeEachSwapped t).transaction = (beforeEach t).transaction ∧
      beforeEachSwapped t = beforeEach t := by
  have hd := prefixes_disjoint t.name
  have hswap : beforeEachSwapped t = beforeEach t := by
    cases h1 : startsWith t.name suggest400Prefix <;>
      cases h2 : startsWith t.name healthPrefix
    · simp [beforeEachSwapped, beforeEach, beforeEachFrom, suggest400Rule, healthRule, h1, h2]
    · simp [beforeEachSwapped, beforeEach, beforeEachFrom, suggest400Rule, healthRule, h1, h2]
    · simp [beforeEachSwapped, beforeEach, beforeEachFrom, suggest400Rule, healthRule, h1, h2]
    · exact absurd ⟨h1, h2⟩ hd
  exact ⟨hd, by rw [hswap], hswap⟩

/-- C10: `beforeEach` never changes the name and is idempotent: the name after
the policy equals the name before, and applying the policy a second time to
the result yields the same skip flag and request body (indeed the same
transaction) as applying it once. -/
theorem C10_beforeEach_keeps_name_and_is_idempotent (t : Transaction) :
    (beforeEach t).transaction.name = t.name ∧
      (beforeEach (beforeEach t).transaction).transaction.skip
        = (beforeEach t).transaction.skip ∧
      (beforeEach (beforeEach t).transaction).transaction.request.body
        = (beforeEach t).transaction.request.body ∧
      (beforeEach (beforeEach t).transaction).transaction = (beforeEach t).transaction := by
  have once : (beforeEach t).transaction.name = t.name ∧
      beforeEach (beforeEach t).transaction =
        { transaction := (beforeEach t).transaction, log := (beforeEach t).log } := by
    cases h1 : startsWith t.name suggest400Prefix
    · cases h2 : startsWith t.name healthPrefix
      · rw [beforeEach_of_neither t h1 h2]
        exact ⟨rfl, beforeEach_of_neither t h1 h2⟩
      · rw [beforeEach_of_health t h2]
        exact ⟨rfl, beforeEach_of_health _ h2⟩
    · rw [beforeEach_of_suggest400 t h1]
      exact ⟨rfl, beforeEach_of_suggest400 _ h1⟩
  obtain ⟨hname, htwice⟩ := once
  rw [htwice]
  exact ⟨hname, rfl, rfl, rfl⟩

/-! ## Fixture loader: the claims -/

/-- C5: when the fixture file './_ft/ersatz-fixtures.yml' does not exist, the
`beforeAll` hook returns normally, issues no HTTP request and does not read the
file; after the existence test it logs 'No fixtures found, skipping hook.' and
calls `done`, exactly once. -/
theorem C5_missing_fixture_skips_request (w : World)
    (h : w.existsSync "./_ft/ersatz-fixtures.yml" = false) :
    (runHook (beforeAll w)).result = Except.ok () ∧
      requestsOf (runHook (beforeAll w)).trace = [] ∧
      (∀ path encoding : String,
        Effect.readFileSync path encoding ∉ (runHook (beforeAll w)).trace) ∧
      (runHook (beforeAll w)).trace =
        [Effect.existsSync "./_ft/ersatz-fixtures.yml",
         Effect.consoleLog "No fixtures found, skipping hook.",
         Effect.done] ∧
      List.count Effect.done (runHook (beforeAll w)).trace = 1 := by
  obtain ⟨hres, htrace⟩ := beforeAll_missing w h
  rw [hres, htrace]
  refine ⟨rfl, rfl, ?_, rfl, by decide⟩
  intro path encoding hmem
  simp at hmem

/-- Witness of C5 in a world with no file at all. -/
theorem C5_missing_fixture_skips_request_witness :
    emptyWorld.existsSync "./_ft/ersatz-fixtures.yml" = false ∧
      (runHook (beforeAll emptyWorld)).result = Except.ok () ∧
      requestsOf (runHook (beforeAll emptyWorld)).trace = [] ∧
      (∀ path encoding : String,
        Effect.readFileSync path encoding ∉ (runHook (beforeAll emptyWorld)).trace) ∧
      (runHook (beforeAll emptyWorld)).trace =
        [Effect.existsSync "./_ft/ersatz-fixtures.yml",
         Effect.consoleLog "No fixtures found, skipping hook.",
         Effect.done] ∧
      List.count Effect.done (runHook (beforeAll emptyWorld)).trace = 1 :=
  ⟨rfl, C5_missing_fixture_skips_request emptyWorld rfl⟩

/-- C6: when the fixture file exists and reading it (as 'utf8') yields the text
`C`, for every `C` the `beforeAll` hook issues exactly one HTTP request, with
method POST, host 'localhost', port '9000' (the number 9000), path
'/__configure' and the single header 'Content-Type: application/x-yaml'; the
chunks written to that request are exactly `[C]`, and the write is followed
directly by the request's end. -/
theorem C6_existing_fixture_posted_once (w : World) (C : String)
    (h1 : w.existsSync "./_ft/ersatz-fixtures.yml" = true)
    (h2 : w.readFileSync "./_ft/ersatz-fixtures.yml" "utf8" = Except.ok C) :
    (∃ (o : RequestOptions) (cb : List ResponseAction),
        requestsOf (runHook (beforeAll w)).trace = [(o, cb)] ∧
        o.method = "POST" ∧ o.host = "localhost" ∧ o.port = "9000" ∧
        portNumber o = some 9000 ∧ o.path = "/__configure" ∧
        o.headers = [("Content-Type", "application/x-yaml")]) ∧
      writesOf 0 (runHook (beforeAll w)).trace = [C] ∧
      (∀ (req : Nat) (chunk : String),
        Effect.reqWrite req chunk ∈ (runHook (beforeAll w)).trace → req = 0 ∧ chunk = C) ∧
      (runHook (beforeAll w)).trace =
        [Effect.existsSync "./_ft/ersatz-fixtures.yml",
         Effect.readFileSync "./_ft/ersatz-fixtures.yml" "utf8",
         Effect.httpRequest
           { host := "localhost", port := "9000", path := "/__configure", method := "POST",
             headers := [("Content-Type", "application/x-yaml")] }
           [ResponseAction.setEncoding "utf8"],
         Effect.reqWrite 0 C,
         Effect.reqEnd 0,
         Effect.done] := by
  obtain ⟨_, htrace⟩ := beforeAll_read_ok w C h1 h2
  rw [htrace]
  refine ⟨⟨_, _, rfl, rfl, rfl, rfl, by decide, rfl, rfl⟩, ?_, ?_, rfl⟩
  · simp [writesOf]
  · intro req chunk hmem
    simp at hmem
    exact hmem

/-- Witness of C6 in a world where the fixture file holds the text "routes: []". -/
theorem C6_existing_fixture_posted_once_witness :
    fixtureWorld.existsSync "./_ft/ersatz-fixtures.yml" = true ∧
      fixtureWorld.readFileSync "./_ft/ersatz-fixtures.yml" "utf8" = Except.ok "routes: []" ∧
      writesOf 0 (runHook (beforeAll fixtureWorld)).trace = ["routes: []"] ∧
      (runHook (beforeAll fixtureWorld)).trace =
        [Effect.existsSync "./_ft/ersatz-fixtures.yml",
         Effect.readFileSync "./_ft/ersatz-fixtures.yml" "utf8",
         Effect.httpRequest
           { host := "localhost", port := "9000", path := "/__configure", method := "POST",
             headers := [("Content-Type", "application/x-yaml")] }
           [ResponseAction.setEncoding "utf8"],
         Effect.reqWrite 0 "routes: []",
         Effect.reqEnd 0,
         Effect.done] :=
  ⟨rfl, rfl,
   (C6_existing_fixture_posted_once fixtureWorld "routes: []" rfl rfl).2.1,
   (C6_existing_fixture_posted_once fixtureWorld "routes: []" rfl rfl).2.2.2⟩

/-- C7: on every run of `beforeAll` that returns normally, `done` is called
exactly once; and when the fixture file exists, the trace of effects ends with
the write of the body, the end of the request and then `done`, in this order,
after the request was created, and `done` occurs nowhere before them. -/
theorem C7_done_once_after_dispatch (w : World)
    (h : (runHook (beforeAll w)).result = Except.ok ()) :
    List.count Effect.done (runHook (beforeAll w)).trace = 1 ∧
      (w.existsSync "./_ft/ersatz-fixtures.yml" = true →
        ∃ (before : List Effect) (C : String),
          w.readFileSync "./_ft/ersatz-fixtures.yml" "utf8" = Except.ok C ∧
          (runHook (beforeAll w)).trace =
            before ++ [Effect.reqWrite 0 C, Effect.reqEnd 0, Effect.done] ∧
          Effect.done ∉ before ∧
          requestsOf before = requestsOf (runHook (beforeAll w)).trace ∧
          (requestsOf before).length = 1) := by
  cases hex : w.existsSync defaultFixtures
  · obtain ⟨_, htrace⟩ := beforeAll_missing w hex
    rw [htrace]
    refine ⟨by decide, fun hcontra => ?_⟩
    rw [show w.existsSync "./_ft/ersatz-fixtures.yml" = false from hex] at hcontra
    exact absurd hcontra (by decide)
  · cases hrd : w.readFileSync defaultFixtures "utf8" with
    | error e =>
      obtain ⟨hres, _⟩ := beforeAll_read_error w e hex hrd
      rw [hres] at h
      exact absurd h (by simp)
    | ok C =>
      obtain ⟨_, htrace⟩ := beforeAll_read_ok w C hex hrd
      rw [htrace]
      refine ⟨rfl, fun _ =>
        ⟨[Effect.existsSync defaultFixtures,
          Effect.readFileSync defaultFixtures "utf8",
          Effect.httpRequest
            { host := "localhost", port := "9000", path := "/__configure", method := "POST",
              headers := [("Content-Type", "application/x-yaml")] }
            [ResponseAction.setEncoding "utf8"]],
         C, hrd, rfl, ?_, rfl, rfl⟩⟩
      simp

/-- Witness of C7 in a world where the fixture file exists and is readable. -/
theorem C7_done_once_after_dispatch_witness :
    (runHook (beforeAll fixtureWorld)).result = Except.ok () ∧
      List.count Effect.done (runHook (beforeAll fixtureWorld)).trace = 1 ∧
      (fixtureWorld.existsSync "./_ft/ersatz-fixtures.yml" = true →
        ∃ (before : List Effect) (C : String),
          fixtureWorld.readFileSync "./_ft/ersatz-fixtures.yml" "utf8" = Except.ok C ∧
          (runHook (beforeAll fixtureWorld)).trace =
            before ++ [Effect.reqWrite 0 C, Effect.reqEnd 0, Effect.done] ∧
          Effect.done ∉ before ∧
          requestsOf before = requestsOf (runHook (beforeAll fixtureWorld)).trace ∧
          (requestsOf before).length = 1) :=
  ⟨rfl, C7_done_once_after_dispatch fixtureWorld rfl⟩

/-- C8: a read failure is not handled by `beforeAll`: if the fixture file
exists but reading it throws the error `e`, the hook ends by throwing `e`,
having created no HTTP request, written to none, and not called `done`. -/
theorem C8_read_failure_propagates (w : World) (e : JsError)
    (h1 : w.existsSync "./_ft/ersatz-fixtures.yml" = true)
    (h2 : w.readFileSync "./_ft/ersatz-fixtures.yml" "utf8" = Except.error e) :
    (runHook (beforeAll w)).result = Except.error e ∧
      requestsOf (runHook (beforeAll w)).trace = [] ∧
      Effect.done ∉ (runHook (beforeAll w)).trace ∧
      (runHook (beforeAll w)).trace =
        [Effect.existsSync "./_ft/ersatz-fixtures.yml",
         Effect.readFileSync "./_ft/ersatz-fixtures.yml" "utf8"] := by
  obtain ⟨hres, htrace⟩ := beforeAll_read_error w e h1 h2
  rw [hres, htrace]
  refine ⟨rfl, rfl, ?_, rfl⟩
  simp

/-- Witness of C8 in a world where the file exists and the read is refused. -/
theorem C8_read_failure_propagates_witness :
    unreadableWorld.existsSync "./_ft/ersatz-fixtures.yml" = true ∧
      unreadableWorld.readFileSync "./_ft/ersatz-fixtures.yml" "utf8"
        = Except.error { message := "EACCES" } ∧
      (runHook (beforeAll unreadableWorld)).result = Except.error { message := "EACCES" } ∧
      requestsOf (runHook (beforeAll unreadableWorld)).trace = [] ∧
      Effect.done ∉ (runHook (beforeAll unreadableWorld)).trace ∧
      (runHook (beforeAll unreadableWorld)).trace =
        [Effect.existsSync "./_ft/ersatz-fixtures.yml",
         Effect.readFileSync "./_ft/ersatz-fixtures.yml" "utf8"] :=
  ⟨rfl, rfl, C8_read_failure_propagates unreadableWorld { message := "EACCES" } rfl rfl⟩

end DreddHooks
